import Mathlib

/-!
Verification of the documentation-generation core of django-rest-swagger
(`rest_framework_swagger/docgenerator.py`).

The repository ships only `docgenerator.py` under src; the collaborating
module `introspectors.py` (the handler/method introspector protocol,
`IntrospectorHelper` and `get_resolved_value`) is not part of the sources,
so those collaborators are modelled from the specification (sections 4.4,
4.5 and 6 of the spec). Every definition below that embeds missing code
carries a doc comment starting with: Modelled from the spec.

Python values are embedded as follows: Python `None` is `PyVal.null`,
dictionaries built by literal insertion are association lists
(`List (String × _)`), Python object identity of serializer classes is an
explicit `id : Nat` token, the transient `callback.request` attribute is
explicit state threading (`State`), and the uncaught `KeyError` raised by
indexing a per-method override mapping is `Except Err`.
-/

/-- A Python scalar value as it appears in the generated documentation
structures. `null` is Python `None`. -/
inductive PyVal where
  | null
  | str (s : String)
  | int (n : Int)
  | bool (b : Bool)
  deriving DecidableEq, Repr

/-- The `default` attribute of a serializer field: either a direct value or
a zero-argument callable (spec section 4.3). -/
inductive DefaultSpec where
  | value (v : PyVal)
  | callable (g : Unit → PyVal)

/-- A serializer field (spec section 6, field protocol): a type label plus
optional `required`, `min_length`, `max_length`, `default`, `read_only`
attributes. `Option.none` models the attribute being entirely absent
(so that `getattr(field, attr, None)` is `Option.getD · PyVal.null`). -/
structure SField where
  type_label : String
  required : Option PyVal
  min_length : Option PyVal
  max_length : Option PyVal
  default : Option DefaultSpec
  read_only : Option PyVal

/-- A serializer class. `id` stands for Python object identity (two classes
are the same object exactly when their ids are equal); `name` is the bare
`__name__`; `fields` is what `serializer().get_fields()` returns
(a dict, hence unique keys). -/
structure SerializerClass where
  id : Nat
  name : String
  fields : List (String × SField)

/-- Modelled from the spec: the value of a per-method request/response
override (spec sections 6 and 9): a bare model class, a mapping keyed by
HTTP method, explicitly empty (Python empty string, falsy), or absent
(Python `None`). -/
inductive OverrideVal where
  | absent
  | empty
  | scalar (c : SerializerClass)
  | byMethod (m : List (String × SerializerClass))

/-- ParameterDescriptor is opaque to the core (spec section 3); an
abstract token suffices. -/
abbrev Param := Nat

/-- Modelled from the spec: a Method Introspector (spec section 4.5),
one per (handler, HTTP verb) pair, exposing the fixed capability set the
generator queries: `get_http_method`, `get_summary`, `get_nickname`,
`get_notes`, `get_serializer_class` (the handler default),
`get_request_class` and `get_response_class` (per-method overrides),
`get_parameters`. -/
structure MethodIntrospector where
  http_method : String
  summary : String
  nickname : String
  notes : String
  serializer_class : Option SerializerClass
  request_class : OverrideVal
  response_class : OverrideVal
  parameters : List Param

/-- A synthetic request context: `HttpRequest()` is constructed with no
arguments, so all constructed instances are structurally identical. -/
inductive Req where
  | mk
  deriving DecidableEq, Repr

/-- The compiled URL pattern is opaque to the generator; an abstract token. -/
abbrev Pattern := Nat

/-- Modelled from the spec: a handler (view/viewset) class. `id` is Python
class-object identity (the request slot lives on the class, shared by every
route referencing it); `docstring` is the class documentation string;
`serializer_class` is the handler default serializer (absent when the class
has no `get_serializer_class` attribute); `introspect` models constructing
the appropriate Handler Introspector variant (viewset or plain, selection
being internal to the missing `introspectors.py`) for a path and pattern
and iterating its Method Introspectors, given the current value of the
transient `request` slot that some introspector queries read. -/
structure HandlerClass where
  id : Nat
  docstring : Option String
  serializer_class : Option SerializerClass
  introspect : String → Pattern → Option Req → List MethodIntrospector

/-- A route descriptor as consumed by the generator: the `api` dicts with
keys `path`, `pattern`, `callback`. -/
structure Route where
  path : String
  pattern : Pattern
  callback : HandlerClass

/-- The mutable `request` slots of all handler classes, keyed by class
identity: `callback.request = HttpRequest()` is an update of this state. -/
abbrev State := Nat → Option Req

/-- Setting the transient request attribute on the class with identity `i`. -/
def updateState (s : State) (i : Nat) (v : Option Req) : State :=
  fun n => if n = i then v else s n

/-- The only failure the generator can hit in this model: the uncaught
`KeyError` from indexing a per-method override mapping with a method that
is not a key (docgenerator.py line 65 and line 141). -/
inductive Err where
  | keyError (k : String)
  deriving DecidableEq, Repr

namespace IntrospectorHelper

/-- Modelled from the spec: `IntrospectorHelper.get_view_description`
(spec section 4.4) returns the handler docstring with surrounding
whitespace normalized; an absent docstring yields the empty string. -/
def get_view_description (cb : HandlerClass) : String :=
  (cb.docstring.getD "").trim

/-- Modelled from the spec: `IntrospectorHelper.get_serializer_name`
(spec section 4.4) returns the bare class name, with no module
qualification. -/
def get_serializer_name (c : SerializerClass) : String :=
  c.name

end IntrospectorHelper

/-- Modelled from the spec: `get_resolved_value(obj, attr, default)`
(spec section 4.4), specialized to the `default` attribute of a field as
the generator uses it (docgenerator.py line 165): if the attribute is
absent the fallback is returned; a zero-argument callable is invoked; a
direct value is used as is. -/
def get_resolved_value (f : SField) (dflt : PyVal) : PyVal :=
  match f.default with
  | Option.none => dflt
  | some (DefaultSpec.value v) => v
  | some (DefaultSpec.callable g) => g ()

/-- The Swagger property built for one serializer field
(docgenerator.py lines 159-169): the dict literal with keys `type`,
`required` and the nested `allowableValues` dict. The nested dict is kept
as an association list because key presence is observable. `propType` is
the value under the `type` key. -/
structure PropertyDescriptor where
  propType : PyVal
  required : PyVal
  allowableValues : List (String × PyVal)
  deriving DecidableEq, Repr

/-- docgenerator.py lines 157-169: the property built for one field. All
five `allowableValues` keys are inserted unconditionally; absent field
attributes contribute the value `None` (`PyVal.null`), per
`getattr(field, attr, None)` and `get_resolved_value(field, 'default', None)`. -/
def fieldProperty (f : SField) : PropertyDescriptor :=
  { propType := PyVal.str f.type_label
    required := f.required.getD PyVal.null
    allowableValues :=
      [("min", f.min_length.getD PyVal.null),
       ("max", f.max_length.getD PyVal.null),
       ("defaultValue", get_resolved_value f PyVal.null),
       ("readOnly", f.read_only.getD PyVal.null),
       ("valueType", PyVal.str "RANGE")] }

/-- The `data` dict of `_get_serializer_fields` for an actual serializer
class: one property per field, field names preserved verbatim. `get_fields`
returns a dict, so the names are unique and plain `map` is faithful. -/
def fieldProperties (c : SerializerClass) : List (String × PropertyDescriptor) :=
  c.fields.map (fun p => (p.1, fieldProperty p.2))

/-- docgenerator.py lines 147-171: `_get_serializer_fields`. The falsy
guard on lines 151-152 (`if not serializer: return`) yields Python `None`,
modelled as `Option.none`; a real class yields its field properties. -/
def _get_serializer_fields (serializer : Option SerializerClass) :
    Option (List (String × PropertyDescriptor)) :=
  match serializer with
  | Option.none => Option.none
  | some c => some (fieldProperties c)

/-- docgenerator.py lines 173-175: `_get_serializer_class` returns the
handler default serializer when the class exposes the accessor, Python
`None` otherwise. -/
def _get_serializer_class (cb : HandlerClass) : Option SerializerClass :=
  cb.serializer_class

/-- A value stored in an operation dict: either a string or the opaque
parameter list. -/
inductive OpVal where
  | vstr (s : String)
  | vparams (ps : List Param)
  deriving DecidableEq, Repr

/-- An OperationDescriptor: the Python dict in insertion order, kept as an
association list because conditional key insertion is observable. -/
abbrev Operation := List (String × OpVal)

/-- docgenerator.py lines 57-65: resolution of the effective response
model for one method. `None` override falls back to the handler default
serializer; an empty (falsy, not-None) override leaves no model; a bare
class is used directly; a mapping keyed by HTTP method is indexed with the
current method, raising `KeyError` when the key is missing. -/
def resolveResponse (mi : MethodIntrospector) : Except Err (Option SerializerClass) :=
  match mi.response_class with
  | OverrideVal.absent => Except.ok mi.serializer_class
  | OverrideVal.empty => Except.ok Option.none
  | OverrideVal.scalar c => Except.ok (some c)
  | OverrideVal.byMethod m =>
    match List.lookup mi.http_method m with
    | some c => Except.ok (some c)
    | Option.none => Except.error (Err.keyError mi.http_method)

/-- docgenerator.py lines 55-82: the operation dict built for one method
introspector. The four unconditional keys are inserted first, then
`responseClass` only when a model was resolved (classes are truthy,
`None` is falsy), then `parameters` only when the list is non-empty. -/
def build_operation (mi : MethodIntrospector) : Except Err Operation :=
  match resolveResponse mi with
  | Except.error e => Except.error e
  | Except.ok serializer =>
    let operation : Operation :=
      [("httpMethod", OpVal.vstr mi.http_method),
       ("summary", OpVal.vstr mi.summary),
       ("nickname", OpVal.vstr mi.nickname),
       ("notes", OpVal.vstr mi.notes)]
    let operation : Operation :=
      match serializer with
      | some c =>
        operation ++ [("responseClass",
          OpVal.vstr (IntrospectorHelper.get_serializer_name c))]
      | Option.none => operation
    let operation : Operation :=
      if mi.parameters.length > 0
      then operation ++ [("parameters", OpVal.vparams mi.parameters)]
      else operation
    Except.ok operation

/-- docgenerator.py lines 47-82: the loop over the method introspectors of
one endpoint; an uncaught `KeyError` aborts the whole loop, discarding the
operations already built. -/
def buildOps : List MethodIntrospector → Except Err (List Operation)
  | [] => Except.ok []
  | mi :: rest =>
    match build_operation mi with
    | Except.error e => Except.error e
    | Except.ok op =>
      match buildOps rest with
      | Except.error e => Except.error e
      | Except.ok ops => Except.ok (op :: ops)

/-- The method introspectors produced for a route once the request slot has
been set: the slot a route sees after `callback.request = HttpRequest()` is
always `some Req.mk`. -/
def introspectorsOf (api : Route) : List MethodIntrospector :=
  api.callback.introspect api.path api.pattern (some Req.mk)

/-- docgenerator.py lines 26-84: `get_operations`. Sets the transient
request slot on the handler class, constructs the introspector for
(callback, path, pattern) and builds one operation per method
introspector. Returns the resulting state alongside the operations. -/
def get_operations (api : Route) (s : State) :
    Except Err (List Operation × State) :=
  let cb := api.callback
  let s' := updateState s cb.id (some Req.mk)
  let mis := cb.introspect api.path api.pattern (s' cb.id)
  match buildOps mis with
  | Except.error e => Except.error e
  | Except.ok ops => Except.ok (ops, s')

/-- One PathDocumentation entry of the output of `generate`. -/
structure PathDoc where
  description : String
  path : String
  operations : List Operation
  deriving DecidableEq, Repr

/-- docgenerator.py lines 12-24: `generate`. One PathDocumentation per
route, in input order; an uncaught failure in any route discards the whole
output. -/
def generate : List Route → State → Except Err (List PathDoc × State)
  | [], s => Except.ok ([], s)
  | api :: rest, s =>
    match get_operations api s with
    | Except.error e => Except.error e
    | Except.ok (ops, s') =>
      match generate rest s' with
      | Except.error e => Except.error e
      | Except.ok (docs, s'') =>
        Except.ok
          ({ description := IntrospectorHelper.get_view_description api.callback,
             path := api.path,
             operations := ops } :: docs, s'')

/-- docgenerator.py lines 137-143: resolution of one request/response
override inside `_get_serializer_set`: a mapping keyed by HTTP method is
indexed first (possible `KeyError`); the result is added only when truthy,
so `None` and the empty override contribute nothing. -/
def resolveOverride (http_method : String) :
    OverrideVal → Except Err (Option SerializerClass)
  | OverrideVal.absent => Except.ok Option.none
  | OverrideVal.empty => Except.ok Option.none
  | OverrideVal.scalar c => Except.ok (some c)
  | OverrideVal.byMethod m =>
    match List.lookup http_method m with
    | some c => Except.ok (some c)
    | Option.none => Except.error (Err.keyError http_method)

/-- Python set insertion, deduplicated by class object identity. Iteration
order of the model is insertion order; no claim below depends on the order
of the set. -/
def insertClass (acc : List SerializerClass) (c : SerializerClass) :
    List SerializerClass :=
  if acc.any (fun a => a.id == c.id) then acc else acc ++ [c]

/-- docgenerator.py lines 137-143: the inner loop over
`['get_request_class', 'get_response_class']` for one method introspector,
in that order: the request override is resolved (and possibly raises)
before the response override is consulted. -/
def collectMethodSerializers (mi : MethodIntrospector)
    (acc : List SerializerClass) : Except Err (List SerializerClass) :=
  match resolveOverride mi.http_method mi.request_class with
  | Except.error e => Except.error e
  | Except.ok r1 =>
    let acc1 := match r1 with
      | some c => insertClass acc c
      | Option.none => acc
    match resolveOverride mi.http_method mi.response_class with
    | Except.error e => Except.error e
    | Except.ok r2 =>
      Except.ok (match r2 with
        | some c => insertClass acc1 c
        | Option.none => acc1)

/-- docgenerator.py lines 134-143: the loop over the method introspectors
of one endpoint inside `_get_serializer_set`. -/
def misLoop : List MethodIntrospector → List SerializerClass →
    Except Err (List SerializerClass)
  | [], acc => Except.ok acc
  | mi :: rest, acc =>
    match collectMethodSerializers mi acc with
    | Except.error e => Except.error e
    | Except.ok acc' => misLoop rest acc'

/-- docgenerator.py lines 118-143: the loop over the routes inside
`_get_serializer_set`: per route, set the request slot, add the handler
default serializer when present, then walk the method introspectors. -/
def serializerSetLoop : List Route → State → List SerializerClass →
    Except Err (List SerializerClass × State)
  | [], s, acc => Except.ok (acc, s)
  | api :: rest, s, acc =>
    let cb := api.callback
    let s' := updateState s cb.id (some Req.mk)
    let acc1 := match _get_serializer_class cb with
      | some c => insertClass acc c
      | Option.none => acc
    let mis := cb.introspect api.path api.pattern (s' cb.id)
    match misLoop mis acc1 with
    | Except.error e => Except.error e
    | Except.ok acc2 => serializerSetLoop rest s' acc2

/-- docgenerator.py lines 105-145: `_get_serializer_set`, starting from the
empty set. -/
def _get_serializer_set (apis : List Route) (s : State) :
    Except Err (List SerializerClass × State) :=
  serializerSetLoop apis s []

/-- A Swagger model entry: the dict with keys `id` and `properties`
(docgenerator.py lines 98-101). -/
structure ModelDescriptor where
  id : String
  properties : List (String × PropertyDescriptor)
  deriving DecidableEq, Repr

/-- The model dict built for one serializer class (docgenerator.py lines
95-101). The set members are actual classes (truthy), so
`_get_serializer_fields` is in its `some` branch here. -/
def serializerModel (c : SerializerClass) : ModelDescriptor :=
  { id := c.name, properties := fieldProperties c }

/-- Python dict insertion into the `models` dict: overwriting an existing
key keeps its position and replaces the value, a new key is appended. -/
def dictInsert (m : List (String × ModelDescriptor)) (k : String)
    (v : ModelDescriptor) : List (String × ModelDescriptor) :=
  if m.any (fun p => p.1 == k) then
    m.map (fun p => if p.1 == k then (k, v) else p)
  else m ++ [(k, v)]

/-- docgenerator.py lines 86-103: `get_models`: collect the serializer set,
then key one model dict per class by its bare name. -/
def get_models (apis : List Route) (s : State) :
    Except Err (List (String × ModelDescriptor) × State) :=
  match _get_serializer_set apis s with
  | Except.error e => Except.error e
  | Except.ok (sers, s') =>
    Except.ok
      (sers.foldl (fun m c => dictInsert m c.name (serializerModel c)) [], s')

/-- A method introspector with its request-class override erased: two
handlers differ only in `get_request_class` exactly when their method
introspectors agree after this erasure. -/
def eraseRequest (mi : MethodIntrospector) : MethodIntrospector :=
  { mi with request_class := OverrideVal.absent }

/-! Concrete fixtures used by the witness and counterexample theorems. -/

/-- A field with every optional attribute absent. -/
def fldNoDefault : SField :=
  { type_label := "string", required := Option.none, min_length := Option.none,
    max_length := Option.none, default := Option.none, read_only := Option.none }

/-- A field whose `default` is a zero-argument callable returning 7. -/
def fldCallable : SField :=
  { type_label := "integer", required := some (PyVal.bool true),
    min_length := Option.none, max_length := Option.none,
    default := some (DefaultSpec.callable (fun _ => PyVal.int 7)),
    read_only := Option.none }

/-- A field whose `default` is the direct value "d". -/
def fldValue : SField :=
  { type_label := "string", required := some (PyVal.bool false),
    min_length := Option.none, max_length := Option.none,
    default := some (DefaultSpec.value (PyVal.str "d")),
    read_only := some (PyVal.bool true) }

def serA : SerializerClass :=
  { id := 0, name := "ASerializer", fields := [("a", fldNoDefault)] }

def serB : SerializerClass :=
  { id := 1, name := "BSerializer", fields := [("b", fldCallable)] }

def serC : SerializerClass :=
  { id := 2, name := "CSerializer", fields := [("c", fldValue)] }

/-- Two distinct serializer classes (distinct identities) sharing the bare
name "DupSerializer". -/
def serD1 : SerializerClass :=
  { id := 3, name := "DupSerializer", fields := [("d1", fldNoDefault)] }

def serD2 : SerializerClass :=
  { id := 4, name := "DupSerializer", fields := [("d2", fldValue)] }

/-- GET method with a by-method response override {GET: A, POST: B}. -/
def miGet : MethodIntrospector :=
  { http_method := "GET", summary := "sum", nickname := "nick", notes := "note",
    serializer_class := some serC, request_class := OverrideVal.absent,
    response_class := OverrideVal.byMethod [("GET", serA), ("POST", serB)],
    parameters := [] }

/-- POST method with the same by-method response override and one parameter. -/
def miPost : MethodIntrospector :=
  { http_method := "POST", summary := "sum", nickname := "nick", notes := "note",
    serializer_class := some serC, request_class := OverrideVal.absent,
    response_class := OverrideVal.byMethod [("GET", serA), ("POST", serB)],
    parameters := [1] }

/-- PUT method with an explicitly empty response override despite the
handler default serializer being present. -/
def miPut : MethodIntrospector :=
  { http_method := "PUT", summary := "sum", nickname := "nick", notes := "note",
    serializer_class := some serC, request_class := OverrideVal.absent,
    response_class := OverrideVal.empty, parameters := [] }

/-- DELETE method with no response override at all. -/
def miDelete : MethodIntrospector :=
  { http_method := "DELETE", summary := "sum", nickname := "nick",
    notes := "note", serializer_class := some serC,
    request_class := OverrideVal.absent, response_class := OverrideVal.absent,
    parameters := [] }

def handler0 : HandlerClass :=
  { id := 0, docstring := some "  a view  ", serializer_class := some serC,
    introspect := fun _ _ _ => [miGet, miPost, miPut, miDelete] }

def route0 : Route := { path := "/x", pattern := 0, callback := handler0 }

/-- GET method whose request override is a mapping with no entry for GET:
resolving it raises `KeyError`, but only `get_models` ever resolves it. -/
def miBadRequest : MethodIntrospector :=
  { http_method := "GET", summary := "sum", nickname := "nick", notes := "note",
    serializer_class := some serC,
    request_class := OverrideVal.byMethod [("POST", serA)],
    response_class := OverrideVal.absent, parameters := [] }

def handlerBadRequest : HandlerClass :=
  { id := 1, docstring := Option.none, serializer_class := some serC,
    introspect := fun _ _ _ => [miBadRequest] }

def routeBadRequest : Route :=
  { path := "/bad-req", pattern := 1, callback := handlerBadRequest }

/-- GET method whose response override is a mapping with no entry for GET. -/
def miBadResponse : MethodIntrospector :=
  { http_method := "GET", summary := "sum", nickname := "nick", notes := "note",
    serializer_class := some serC, request_class := OverrideVal.absent,
    response_class := OverrideVal.byMethod [("POST", serA)], parameters := [] }

def handlerBadResponse : HandlerClass :=
  { id := 2, docstring := Option.none, serializer_class := some serC,
    introspect := fun _ _ _ => [miBadResponse] }

def routeBadResponse : Route :=
  { path := "/bad-resp", pattern := 2, callback := handlerBadResponse }

/-- Two handlers referencing the two same-named distinct classes. -/
def handlerD1 : HandlerClass :=
  { id := 3, docstring := Option.none, serializer_class := some serD1,
    introspect := fun _ _ _ => [] }

def handlerD2 : HandlerClass :=
  { id := 4, docstring := Option.none, serializer_class := some serD2,
    introspect := fun _ _ _ => [] }

def routeD1 : Route := { path := "/d1", pattern := 3, callback := handlerD1 }

def routeD2 : Route := { path := "/d2", pattern := 4, callback := handlerD2 }

/-- The GET method of `handler0` with its request-class override replaced:
used to exhibit two handlers differing only in `get_request_class`. -/
def miGetReqA : MethodIntrospector :=
  { miGet with request_class := OverrideVal.scalar serA }

def handler0ReqA : HandlerClass :=
  { handler0 with introspect := fun _ _ _ => [miGetReqA, miPost, miPut, miDelete] }

def route0ReqA : Route := { path := "/x", pattern := 0, callback := handler0ReqA }

/-- The all-slots-unset initial state. -/
def st0 : State := fun _ => Option.none

/-! Helper lemmas about the embedded generator. -/

theorem updateState_self (s : State) (i : Nat) (v : Option Req) :
    updateState s i v i = v := by
  simp [updateState]

theorem get_operations_eq (api : Route) (s : State) :
    get_operations api s =
      match buildOps (introspectorsOf api) with
      | Except.error e => Except.error e
      | Except.ok ops =>
        Except.ok (ops, updateState s api.callback.id (some Req.mk)) := by
  simp only [get_operations, introspectorsOf, updateState_self]

theorem buildOps_ok (mis : List MethodIntrospector) (ops : List Operation)
    (h : buildOps mis = Except.ok ops) :
    List.Forall₂ (fun mi op => build_operation mi = Except.ok op) mis ops := by
  induction mis generalizing ops with
  | nil =>
    simp only [buildOps, Except.ok.injEq] at h
    subst h
    exact List.Forall₂.nil
  | cons mi rest ih =>
    simp only [buildOps] at h
    cases hb : build_operation mi with
    | error e => rw [hb] at h; exact absurd h (by simp)
    | ok op =>
      rw [hb] at h
      cases hr : buildOps rest with
      | error e => rw [hr] at h; exact absurd h (by simp)
      | ok ops' =>
        rw [hr] at h
        simp only [Except.ok.injEq] at h
        subst h
        exact List.Forall₂.cons hb (ih ops' hr)

theorem get_operations_ops (api : Route) (s : State) (ops : List Operation)
    (h : (get_operations api s).map (fun p => p.1) = Except.ok ops) :
    buildOps (introspectorsOf api) = Except.ok ops := by
  rw [get_operations_eq] at h
  cases hb : buildOps (introspectorsOf api) with
  | error e => rw [hb] at h; exact absurd h (by simp [Except.map])
  | ok ops' =>
    rw [hb] at h
    simp only [Except.map, Except.ok.injEq] at h
    rw [h]

/-- C3: `generate` yields exactly one PathDocumentation per input route, in
input order, with the path of the i-th output equal to the path of the i-th
route; same-path routes are not merged. -/
theorem generate_one_doc_per_route (R : List Route) (s : State)
    (docs : List PathDoc)
    (h : (generate R s).map (fun p => p.1) = Except.ok docs) :
    docs.length = R.length ∧
      List.Forall₂ (fun api doc => doc.path = api.path) R docs := by
  induction R generalizing s docs with
  | nil =>
    simp only [generate, Except.map, Except.ok.injEq] at h
    subst h
    exact ⟨rfl, List.Forall₂.nil⟩
  | cons api rest ih =>
    simp only [generate] at h
    cases ho : get_operations api s with
    | error e => rw [ho] at h; exact absurd h (by simp [Except.map])
    | ok p =>
      obtain ⟨ops, s'⟩ := p
      rw [ho] at h
      dsimp only at h
      cases hg : generate rest s' with
      | error e => rw [hg] at h; exact absurd h (by simp [Except.map])
      | ok q =>
        obtain ⟨docs', s''⟩ := q
        rw [hg] at h
        simp only [Except.map, Except.ok.injEq] at h
        subst h
        obtain ⟨hl, hf⟩ := ih s' docs' (by rw [hg]; rfl)
        exact ⟨by simp [hl], List.Forall₂.cons rfl hf⟩

/-- Witness for C3 at a concrete two-route list sharing one path: two
separate PathDocumentation entries are produced. -/
theorem generate_one_doc_per_route_witness :
    ∃ docs : List PathDoc,
      (generate [route0, route0] st0).map (fun p => p.1) = Except.ok docs ∧
      docs.length = [route0, route0].length ∧
      List.Forall₂ (fun api doc => doc.path = api.path) [route0, route0] docs :=
  ⟨_, rfl, generate_one_doc_per_route [route0, route0] st0 _ rfl⟩

theorem build_operation_lookup (mi : MethodIntrospector) (op : Operation)
    (h : build_operation mi = Except.ok op) :
    ∃ r, resolveResponse mi = Except.ok r ∧
      List.lookup "httpMethod" op = some (OpVal.vstr mi.http_method) ∧
      List.lookup "summary" op = some (OpVal.vstr mi.summary) ∧
      List.lookup "nickname" op = some (OpVal.vstr mi.nickname) ∧
      List.lookup "notes" op = some (OpVal.vstr mi.notes) ∧
      List.lookup "responseClass" op =
        Option.map (fun c => OpVal.vstr (IntrospectorHelper.get_serializer_name c)) r ∧
      List.lookup "parameters" op =
        (if mi.parameters.length > 0 then some (OpVal.vparams mi.parameters)
         else Option.none) := by
  cases hr : resolveResponse mi with
  | error e =>
    rw [build_operation, hr] at h
    exact absurd h (by simp)
  | ok r =>
    refine ⟨r, rfl, ?_⟩
    rw [build_operation, hr] at h
    cases r with
    | none =>
      by_cases hp : mi.parameters.length > 0
      · simp only [hp, if_true, Except.ok.injEq] at h
        subst h
        simp [List.lookup, hp]
      · simp only [hp, if_false, Except.ok.injEq] at h
        subst h
        simp [List.lookup, hp]
    | some c =>
      by_cases hp : mi.parameters.length > 0
      · simp only [hp, if_true, Except.ok.injEq] at h
        subst h
        simp [List.lookup, hp]
      · simp only [hp, if_false, Except.ok.injEq] at h
        subst h
        simp [List.lookup, hp]

/-- C6: every operation dict produced by `get_operations` contains the keys
httpMethod, summary, nickname and notes; responseClass is present (with the
resolved model display name) exactly when a response model was resolved;
parameters is present exactly when the parameter list is non-empty. Key
omission, never a null value, signals absence. -/
theorem operation_keys (api : Route) (s : State) (ops : List Operation)
    (h : (get_operations api s).map (fun p => p.1) = Except.ok ops) :
    List.Forall₂ (fun mi op =>
      List.lookup "httpMethod" op = some (OpVal.vstr mi.http_method) ∧
      List.lookup "summary" op = some (OpVal.vstr mi.summary) ∧
      List.lookup "nickname" op = some (OpVal.vstr mi.nickname) ∧
      List.lookup "notes" op = some (OpVal.vstr mi.notes) ∧
      (∀ r, resolveResponse mi = Except.ok r →
        List.lookup "responseClass" op =
          Option.map (fun c => OpVal.vstr (IntrospectorHelper.get_serializer_name c)) r) ∧
      ((List.lookup "parameters" op).isSome ↔ mi.parameters ≠ []) ∧
      List.lookup "parameters" op =
        (if mi.parameters.length > 0 then some (OpVal.vparams mi.parameters)
         else Option.none))
      (introspectorsOf api) ops := by
  have hb := get_operations_ops api s ops h
  have hf := buildOps_ok _ _ hb
  refine hf.imp ?_
  intro mi op hop
  obtain ⟨r, hr, h1, h2, h3, h4, h5, h6⟩ := build_operation_lookup mi op hop
  refine ⟨h1, h2, h3, h4, ?_, ?_, h6⟩
  · intro r' hr'
    rw [hr, Except.ok.injEq] at hr'
    rw [← hr']
    exact h5
  · rw [h6]
    rcases eq_or_ne mi.parameters [] with he | he
    · simp [he]
    · rw [if_pos (List.length_pos.mpr he)]; simp [he]

/-- Witness for C6 at `route0` (four methods: by-method override for GET
and POST, explicitly empty override for PUT, absent override for DELETE,
one method with a non-empty parameter list). -/
theorem operation_keys_witness :
    ∃ ops : List Operation,
      (get_operations route0 st0).map (fun p => p.1) = Except.ok ops ∧
      List.Forall₂ (fun mi op =>
        List.lookup "httpMethod" op = some (OpVal.vstr mi.http_method) ∧
        List.lookup "summary" op = some (OpVal.vstr mi.summary) ∧
        List.lookup "nickname" op = some (OpVal.vstr mi.nickname) ∧
        List.lookup "notes" op = some (OpVal.vstr mi.notes) ∧
        (∀ r, resolveResponse mi = Except.ok r →
          List.lookup "responseClass" op =
            Option.map (fun c => OpVal.vstr (IntrospectorHelper.get_serializer_name c)) r) ∧
        ((List.lookup "parameters" op).isSome ↔ mi.parameters ≠ []) ∧
        List.lookup "parameters" op =
          (if mi.parameters.length > 0 then some (OpVal.vparams mi.parameters)
           else Option.none))
        (introspectorsOf route0) ops :=
  ⟨_, rfl, operation_keys route0 st0 _ rfl⟩

/-- C1: precedence of the effective response model, per operation built by
`get_operations`: no override falls back to the handler default serializer;
a scalar override is used directly; a by-method override selects the entry
for the current HTTP method; an explicitly empty override suppresses the
response model even when a default serializer exists. -/
theorem response_model_precedence (api : Route) (s : State)
    (ops : List Operation)
    (h : (get_operations api s).map (fun p => p.1) = Except.ok ops) :
    List.Forall₂ (fun mi op =>
      (mi.response_class = OverrideVal.absent →
        List.lookup "responseClass" op =
          Option.map (fun c => OpVal.vstr (IntrospectorHelper.get_serializer_name c))
            mi.serializer_class) ∧
      (∀ c, mi.response_class = OverrideVal.scalar c →
        List.lookup "responseClass" op =
          some (OpVal.vstr (IntrospectorHelper.get_serializer_name c))) ∧
      (∀ m c, mi.response_class = OverrideVal.byMethod m →
        List.lookup mi.http_method m = some c →
        List.lookup "responseClass" op =
          some (OpVal.vstr (IntrospectorHelper.get_serializer_name c))) ∧
      (mi.response_class = OverrideVal.empty →
        List.lookup "responseClass" op = Option.none))
      (introspectorsOf api) ops := by
  have hb := get_operations_ops api s ops h
  have hf := buildOps_ok _ _ hb
  refine hf.imp ?_
  intro mi op hop
  obtain ⟨r, hr, _, _, _, _, h5, _⟩ := build_operation_lookup mi op hop
  refine ⟨?_, ?_, ?_, ?_⟩
  · intro hrc
    simp only [resolveResponse, hrc, Except.ok.injEq] at hr
    rw [h5, ← hr]
  · intro c hrc
    simp only [resolveResponse, hrc, Except.ok.injEq] at hr
    rw [h5, ← hr]
    rfl
  · intro m c hrc hm
    simp only [resolveResponse, hrc, hm, Except.ok.injEq] at hr
    rw [h5, ← hr]
    rfl
  · intro hrc
    simp only [resolveResponse, hrc, Except.ok.injEq] at hr
    rw [h5, ← hr]
    rfl

/-- Witness for C1 at `route0`: the GET operation resolves to ASerializer,
POST to BSerializer, the explicitly empty PUT override suppresses the model
despite the default serializer CSerializer, and DELETE falls back to
CSerializer. -/
theorem response_model_precedence_witness :
    ∃ ops : List Operation,
      (get_operations route0 st0).map (fun p => p.1) = Except.ok ops ∧
      List.Forall₂ (fun mi op =>
        (mi.response_class = OverrideVal.absent →
          List.lookup "responseClass" op =
            Option.map (fun c => OpVal.vstr (IntrospectorHelper.get_serializer_name c))
              mi.serializer_class) ∧
        (∀ c, mi.response_class = OverrideVal.scalar c →
          List.lookup "responseClass" op =
            some (OpVal.vstr (IntrospectorHelper.get_serializer_name c))) ∧
        (∀ m c, mi.response_class = OverrideVal.byMethod m →
          List.lookup mi.http_method m = some c →
          List.lookup "responseClass" op =
            some (OpVal.vstr (IntrospectorHelper.get_serializer_name c))) ∧
        (mi.response_class = OverrideVal.empty →
          List.lookup "responseClass" op = Option.none))
        (introspectorsOf route0) ops :=
  ⟨_, rfl, response_model_precedence route0 st0 _ rfl⟩

/-! Lemmas about the models map. -/

theorem dictInsert_mem (m : List (String × ModelDescriptor)) (k : String)
    (v : ModelDescriptor) (x : String × ModelDescriptor)
    (hx : x ∈ dictInsert m k v) : x ∈ m ∨ x = (k, v) := by
  unfold dictInsert at hx
  by_cases hc : m.any (fun p => p.1 == k)
  · rw [if_pos hc] at hx
    obtain ⟨y, hy, hxy⟩ := List.mem_map.mp hx
    by_cases hk : y.1 == k
    · right
      rw [if_pos hk] at hxy
      exact hxy.symm
    · left
      rw [if_neg hk] at hxy
      rw [← hxy]
      exact hy
  · rw [if_neg hc] at hx
    rcases List.mem_append.mp hx with hx | hx
    · exact Or.inl hx
    · exact Or.inr (by simpa using hx)

theorem foldModels_mem (l : List SerializerClass)
    (init : List (String × ModelDescriptor))
    (P : String × ModelDescriptor → Prop)
    (hinit : ∀ x ∈ init, P x)
    (hstep : ∀ c, P (c.name, serializerModel c)) :
    ∀ x ∈ l.foldl (fun m c => dictInsert m c.name (serializerModel c)) init,
      P x := by
  induction l generalizing init with
  | nil => simpa using hinit
  | cons c rest ih =>
    intro x hx
    refine ih (dictInsert init c.name (serializerModel c)) ?_ x hx
    intro y hy
    rcases dictInsert_mem _ _ _ _ hy with hym | hyv
    · exact hinit y hym
    · rw [hyv]
      exact hstep c

theorem get_models_entries (R : List Route) (s : State)
    (m : List (String × ModelDescriptor))
    (h : (get_models R s).map (fun p => p.1) = Except.ok m) :
    ∃ sers, (_get_serializer_set R s).map (fun p => p.1) = Except.ok sers ∧
      m = sers.foldl (fun acc c => dictInsert acc c.name (serializerModel c)) [] := by
  unfold get_models at h
  cases hs : _get_serializer_set R s with
  | error e => rw [hs] at h; exact absurd h (by simp [Except.map])
  | ok p =>
    obtain ⟨sers, s'⟩ := p
    rw [hs] at h
    simp only [Except.map, Except.ok.injEq] at h
    exact ⟨sers, by simp [hs, Except.map], h.symm⟩

/-- C9: in the models map, the ModelDescriptor stored under key k has its
id field equal to k itself (both are the bare serializer class name). -/
theorem model_key_matches_id (R : List Route) (s : State)
    (m : List (String × ModelDescriptor))
    (h : (get_models R s).map (fun p => p.1) = Except.ok m) :
    ∀ x ∈ m, x.2.id = x.1 := by
  obtain ⟨sers, _, hm⟩ := get_models_entries R s m h
  rw [hm]
  exact foldModels_mem sers [] _ (by simp) (fun c => rfl)

/-- Witness for C9 on a concrete route list. -/
theorem model_key_matches_id_witness :
    ∃ m, (get_models [route0] st0).map (fun p => p.1) = Except.ok m ∧
      ∀ x ∈ m, x.2.id = x.1 :=
  ⟨_, rfl, model_key_matches_id [route0] st0 _ rfl⟩

/-- C7: every property of every model produced by `get_models` carries
`allowableValues.valueType` equal to the literal string RANGE, whatever
the field type. -/
theorem valueType_always_RANGE (R : List Route) (s : State)
    (m : List (String × ModelDescriptor))
    (h : (get_models R s).map (fun p => p.1) = Except.ok m) :
    ∀ x ∈ m, ∀ q ∈ x.2.properties,
      List.lookup "valueType" q.2.allowableValues = some (PyVal.str "RANGE") := by
  obtain ⟨sers, _, hm⟩ := get_models_entries R s m h
  rw [hm]
  refine foldModels_mem sers [] _ (by simp) ?_
  intro c q hq
  obtain ⟨p, _, hpq⟩ := List.mem_map.mp hq
  rw [← hpq]
  rfl

/-- Witness for C7 on a concrete route list covering fields of several
types. -/
theorem valueType_always_RANGE_witness :
    ∃ m, (get_models [route0] st0).map (fun p => p.1) = Except.ok m ∧
      ∀ x ∈ m, ∀ q ∈ x.2.properties,
        List.lookup "valueType" q.2.allowableValues = some (PyVal.str "RANGE") :=
  ⟨_, rfl, valueType_always_RANGE [route0] st0 _ rfl⟩

/-! Dedup invariants of the serializer set, and the no-collision form of
the models map. -/

theorem insertClass_pairwise (acc : List SerializerClass) (c : SerializerClass)
    (h : acc.Pairwise (fun a b => a.id ≠ b.id)) :
    (insertClass acc c).Pairwise (fun a b => a.id ≠ b.id) := by
  unfold insertClass
  by_cases hc : acc.any (fun a => a.id == c.id)
  · rw [if_pos hc]
    exact h
  · rw [if_neg hc]
    rw [List.pairwise_append]
    refine ⟨h, List.pairwise_singleton _ _, ?_⟩
    intro a ha b hb
    obtain rfl : b = c := by simpa using hb
    intro hab
    exact hc (List.any_eq_true.mpr ⟨a, ha, by simpa using hab⟩)

theorem collect_pairwise (mi : MethodIntrospector)
    (acc acc' : List SerializerClass)
    (h : collectMethodSerializers mi acc = Except.ok acc')
    (hp : acc.Pairwise (fun a b => a.id ≠ b.id)) :
    acc'.Pairwise (fun a b => a.id ≠ b.id) := by
  unfold collectMethodSerializers at h
  cases h1 : resolveOverride mi.http_method mi.request_class with
  | error e => rw [h1] at h; exact absurd h (by simp)
  | ok r1 =>
    rw [h1] at h
    dsimp only at h
    cases h2 : resolveOverride mi.http_method mi.response_class with
    | error e => rw [h2] at h; exact absurd h (by simp)
    | ok r2 =>
      rw [h2] at h
      simp only [Except.ok.injEq] at h
      rw [← h]
      cases r1 with
      | none =>
        cases r2 with
        | none => exact hp
        | some c2 => exact insertClass_pairwise _ _ hp
      | some c1 =>
        cases r2 with
        | none => exact insertClass_pairwise _ _ hp
        | some c2 => exact insertClass_pairwise _ _ (insertClass_pairwise _ _ hp)

theorem misLoop_pairwise (mis : List MethodIntrospector) :
    ∀ acc acc', misLoop mis acc = Except.ok acc' →
      acc.Pairwise (fun a b => a.id ≠ b.id) →
      acc'.Pairwise (fun a b => a.id ≠ b.id) := by
  induction mis with
  | nil =>
    intro acc acc' h hp
    simp only [misLoop, Except.ok.injEq] at h
    rwa [← h]
  | cons mi rest ih =>
    intro acc acc' h hp
    simp only [misLoop] at h
    cases hc : collectMethodSerializers mi acc with
    | error e => rw [hc] at h; exact absurd h (by simp)
    | ok acc1 =>
      rw [hc] at h
      exact ih acc1 acc' h (collect_pairwise mi acc acc1 hc hp)

theorem setLoop_pairwise (R : List Route) :
    ∀ (s : State) (acc : List SerializerClass)
      (p : List SerializerClass × State),
      serializerSetLoop R s acc = Except.ok p →
      acc.Pairwise (fun a b => a.id ≠ b.id) →
      p.1.Pairwise (fun a b => a.id ≠ b.id) := by
  induction R with
  | nil =>
    intro s acc p h hp
    simp only [serializerSetLoop, Except.ok.injEq] at h
    rw [← h]
    exact hp
  | cons api rest ih =>
    intro s acc p h hp
    simp only [serializerSetLoop] at h
    split at h
    · exact absurd h (by simp)
    · rename_i acc2 heq
      refine ih _ _ _ h (misLoop_pairwise _ _ _ heq ?_)
      cases _get_serializer_class api.callback with
      | none => exact hp
      | some c => exact insertClass_pairwise _ _ hp

theorem serializer_set_pairwise (R : List Route) (s : State)
    (sers : List SerializerClass)
    (h : (_get_serializer_set R s).map (fun p => p.1) = Except.ok sers) :
    sers.Pairwise (fun a b => a.id ≠ b.id) := by
  unfold _get_serializer_set at h
  cases hs : serializerSetLoop R s [] with
  | error e => rw [hs] at h; exact absurd h (by simp [Except.map])
  | ok p =>
    rw [hs] at h
    simp only [Except.map, Except.ok.injEq] at h
    rw [← h]
    exact setLoop_pairwise R s [] p hs List.Pairwise.nil

theorem dictInsert_not_mem (m : List (String × ModelDescriptor)) (k : String)
    (v : ModelDescriptor) (hk : ∀ p ∈ m, p.1 ≠ k) :
    dictInsert m k v = m ++ [(k, v)] := by
  unfold dictInsert
  have hfalse : ¬ (m.any (fun p => p.1 == k) = true) := by
    intro hx
    obtain ⟨p, hp, hpk⟩ := List.any_eq_true.mp hx
    exact hk p hp (by simpa using hpk)
  rw [if_neg hfalse]

theorem foldModels_distinct (l : List SerializerClass) :
    ∀ init : List (String × ModelDescriptor),
      (∀ c ∈ l, ∀ p ∈ init, p.1 ≠ c.name) →
      l.Pairwise (fun a b => a.name ≠ b.name) →
      l.foldl (fun m c => dictInsert m c.name (serializerModel c)) init =
        init ++ l.map (fun c => (c.name, serializerModel c)) := by
  induction l with
  | nil => intro init _ _; simp
  | cons c rest ih =>
    intro init hinit hpw
    have h1 : dictInsert init c.name (serializerModel c) =
        init ++ [(c.name, serializerModel c)] :=
      dictInsert_not_mem _ _ _ (fun p hp => hinit c (List.mem_cons_self _ _) p hp)
    have hA : ∀ c' ∈ rest, ∀ p ∈ init ++ [(c.name, serializerModel c)],
        p.1 ≠ c'.name := by
      intro c' hc' p hp
      rcases List.mem_append.mp hp with hpm | hpm
      · exact hinit c' (List.mem_cons_of_mem _ hc') p hpm
      · obtain rfl : p = (c.name, serializerModel c) := by simpa using hpm
        exact (List.pairwise_cons.mp hpw).1 c' hc'
    rw [List.foldl_cons, h1, ih _ hA (List.pairwise_cons.mp hpw).2]
    simp

/-- Counterexample to C2 as stated: two routes referencing two distinct
serializer classes (distinct identities) that share the bare name
DupSerializer. The serializer set has two distinct classes, but
`get_models` returns a single ModelDescriptor: the name-keyed dict
silently overwrites on collision, so there is not exactly one descriptor
per distinct class. -/
theorem get_models_name_collision :
    (_get_serializer_set [routeD1, routeD2] st0).map (fun p => p.1.length) =
      Except.ok 2 ∧
    (get_models [routeD1, routeD2] st0).map (fun p => p.1.length) =
      Except.ok 1 :=
  ⟨rfl, rfl⟩

/-- C2 as amended: provided the distinct serializer classes referenced by
the route list have pairwise distinct bare names (the uniqueness invariant
the spec states), `get_models` returns exactly one ModelDescriptor per
distinct serializer class referenced by identity across default
serializers and all per-method request and response overrides, however
many routes reference the same class; the serializer set itself carries no
identity duplicates. -/
theorem get_models_one_per_class (R : List Route) (s : State)
    (sers : List SerializerClass)
    (hset : (_get_serializer_set R s).map (fun p => p.1) = Except.ok sers)
    (hnames : sers.Pairwise (fun a b => a.name ≠ b.name)) :
    (get_models R s).map (fun p => p.1) =
      Except.ok (sers.map (fun c => (c.name, serializerModel c))) ∧
    sers.Pairwise (fun a b => a.id ≠ b.id) := by
  have hpw := serializer_set_pairwise R s sers hset
  refine ⟨?_, hpw⟩
  cases hs : _get_serializer_set R s with
  | error e => rw [hs] at hset; exact absurd hset (by simp [Except.map])
  | ok p =>
    obtain ⟨sers0, s'⟩ := p
    rw [hs] at hset
    simp only [Except.map, Except.ok.injEq] at hset
    subst hset
    unfold get_models
    rw [hs]
    dsimp only
    rw [foldModels_distinct _ [] (by simp) hnames]
    simp [Except.map]

/-- Witness for the amended C2: the same route listed twice references
three distinct serializer classes (default plus the two by-method override
entries); the models map has exactly one entry per class. -/
theorem get_models_one_per_class_witness :
    ∃ sers,
      ((_get_serializer_set [route0, route0] st0).map (fun p => p.1) =
        Except.ok sers) ∧
      ((get_models [route0, route0] st0).map (fun p => p.1) =
        Except.ok (sers.map (fun c => (c.name, serializerModel c))) ∧
       sers.Pairwise (fun a b => a.id ≠ b.id)) :=
  ⟨_, rfl, get_models_one_per_class [route0, route0] st0 _ rfl (by decide)⟩

/-! Default-value resolution (C4). -/

/-- Counterexample to C4 as stated: for a field carrying no `default`
attribute at all, the produced property has the `defaultValue` key present
with a null value, not absent from the output: the generator inserts the
key unconditionally, substituting None for the missing attribute. -/
theorem defaultValue_present_when_absent :
    List.lookup "defaultValue" (fieldProperty fldNoDefault).allowableValues =
      some PyVal.null ∧
    List.lookup "defaultValue" (fieldProperty fldNoDefault).allowableValues ≠
      Option.none :=
  ⟨rfl, by decide⟩

/-- C4 as amended: the `defaultValue` entry is always present — a callable
default resolves to the result of invoking it, a direct value to itself,
and an entirely absent `default` attribute to a present entry with null
value; likewise each other absent optional field attribute maps to a
present null value, never to an absent key. -/
theorem default_resolution (f : SField) :
    List.lookup "defaultValue" (fieldProperty f).allowableValues =
      some (match f.default with
            | Option.none => PyVal.null
            | some (DefaultSpec.value v) => v
            | some (DefaultSpec.callable g) => g ()) ∧
    (f.min_length = Option.none →
      List.lookup "min" (fieldProperty f).allowableValues = some PyVal.null) ∧
    (f.max_length = Option.none →
      List.lookup "max" (fieldProperty f).allowableValues = some PyVal.null) ∧
    (f.read_only = Option.none →
      List.lookup "readOnly" (fieldProperty f).allowableValues = some PyVal.null) ∧
    (f.required = Option.none → (fieldProperty f).required = PyVal.null) := by
  refine ⟨rfl, ?_, ?_, ?_, ?_⟩
  · intro h
    simp [fieldProperty, List.lookup, h]
  · intro h
    simp [fieldProperty, List.lookup, h]
  · intro h
    simp [fieldProperty, List.lookup, h]
  · intro h
    simp [fieldProperty, h]

/-- Witness for the amended C4: the all-absent field gets a null `min`
entry, and the callable default resolves to 7. -/
theorem default_resolution_witness :
    (List.lookup "min" (fieldProperty fldNoDefault).allowableValues =
      some PyVal.null) ∧
    (List.lookup "defaultValue" (fieldProperty fldCallable).allowableValues =
      some (PyVal.int 7)) :=
  ⟨(default_resolution fldNoDefault).2.1 rfl, (default_resolution fldCallable).1⟩

/-! Error propagation on malformed override mappings (C5). -/

theorem buildOps_error (mis : List MethodIntrospector)
    (hbad : ∃ mi ∈ mis, ∃ m, mi.response_class = OverrideVal.byMethod m ∧
      List.lookup mi.http_method m = Option.none) :
    ∃ e, buildOps mis = Except.error e := by
  induction mis with
  | nil =>
    obtain ⟨mi, hmi, _⟩ := hbad
    exact absurd hmi (List.not_mem_nil mi)
  | cons mi0 rest ih =>
    obtain ⟨mi, hmi, m, hm, hl⟩ := hbad
    rcases List.mem_cons.mp hmi with rfl | hmem
    · have hres : resolveResponse mi = Except.error (Err.keyError mi.http_method) := by
        simp only [resolveResponse, hm, hl]
      refine ⟨Err.keyError mi.http_method, ?_⟩
      simp only [buildOps, build_operation, hres]
    · cases hb : build_operation mi0 with
      | error e => exact ⟨e, by simp only [buildOps, hb]⟩
      | ok op =>
        obtain ⟨e, he⟩ := ih ⟨mi, hmem, m, hm, hl⟩
        exact ⟨e, by simp only [buildOps, hb, he]⟩

theorem get_operations_error (api : Route) (s : State)
    (hbad : ∃ mi ∈ introspectorsOf api, ∃ m,
      mi.response_class = OverrideVal.byMethod m ∧
      List.lookup mi.http_method m = Option.none) :
    ∃ e, get_operations api s = Except.error e := by
  obtain ⟨e, he⟩ := buildOps_error _ hbad
  exact ⟨e, by rw [get_operations_eq, he]⟩

theorem generate_error (R : List Route) :
    ∀ s : State,
      (∃ api ∈ R, ∃ mi ∈ introspectorsOf api, ∃ m,
        mi.response_class = OverrideVal.byMethod m ∧
        List.lookup mi.http_method m = Option.none) →
      ∃ e, generate R s = Except.error e := by
  induction R with
  | nil =>
    intro s h
    obtain ⟨api, hapi, _⟩ := h
    exact absurd hapi (List.not_mem_nil api)
  | cons api0 rest ih =>
    intro s h
    obtain ⟨api, hapi, hbad⟩ := h
    rcases List.mem_cons.mp hapi with rfl | hmem
    · obtain ⟨e, he⟩ := get_operations_error api s hbad
      exact ⟨e, by simp only [generate, he]⟩
    · cases ho : get_operations api0 s with
      | error e => exact ⟨e, by simp only [generate, ho]⟩
      | ok p =>
        obtain ⟨ops, s'⟩ := p
        obtain ⟨e, he⟩ := ih s' ⟨api, hmem, hbad⟩
        exact ⟨e, by simp only [generate, ho, he]⟩

theorem collect_error (mi : MethodIntrospector) (acc : List SerializerClass)
    (hbad : ∃ m, (mi.request_class = OverrideVal.byMethod m ∨
        mi.response_class = OverrideVal.byMethod m) ∧
      List.lookup mi.http_method m = Option.none) :
    ∃ e, collectMethodSerializers mi acc = Except.error e := by
  obtain ⟨m, hor, hl⟩ := hbad
  rcases hor with hreq | hresp
  · refine ⟨Err.keyError mi.http_method, ?_⟩
    simp only [collectMethodSerializers, hreq, resolveOverride, hl]
  · cases h1 : resolveOverride mi.http_method mi.request_class with
    | error e => exact ⟨e, by simp only [collectMethodSerializers, h1]⟩
    | ok r1 =>
      refine ⟨Err.keyError mi.http_method, ?_⟩
      simp only [collectMethodSerializers, h1]
      simp only [hresp, resolveOverride, hl]

theorem misLoop_error (mis : List MethodIntrospector) :
    ∀ acc : List SerializerClass,
      (∃ mi ∈ mis, ∃ m, (mi.request_class = OverrideVal.byMethod m ∨
          mi.response_class = OverrideVal.byMethod m) ∧
        List.lookup mi.http_method m = Option.none) →
      ∃ e, misLoop mis acc = Except.error e := by
  induction mis with
  | nil =>
    intro acc h
    obtain ⟨mi, hmi, _⟩ := h
    exact absurd hmi (List.not_mem_nil mi)
  | cons mi0 rest ih =>
    intro acc h
    obtain ⟨mi, hmi, hbad⟩ := h
    rcases List.mem_cons.mp hmi with rfl | hmem
    · obtain ⟨e, he⟩ := collect_error mi acc ⟨hbad.choose, hbad.choose_spec⟩
      exact ⟨e, by simp only [misLoop, he]⟩
    · cases hc : collectMethodSerializers mi0 acc with
      | error e => exact ⟨e, by simp only [misLoop, hc]⟩
      | ok acc1 =>
        obtain ⟨e, he⟩ := ih acc1 ⟨mi, hmem, hbad⟩
        exact ⟨e, by simp only [misLoop, hc, he]⟩

theorem setLoop_error (R : List Route) :
    ∀ (s : State) (acc : List SerializerClass),
      (∃ api ∈ R, ∃ mi ∈ introspectorsOf api, ∃ m,
        (mi.request_class = OverrideVal.byMethod m ∨
         mi.response_class = OverrideVal.byMethod m) ∧
        List.lookup mi.http_method m = Option.none) →
      ∃ e, serializerSetLoop R s acc = Except.error e := by
  induction R with
  | nil =>
    intro s acc h
    obtain ⟨api, hapi, _⟩ := h
    exact absurd hapi (List.not_mem_nil api)
  | cons api0 rest ih =>
    intro s acc h
    obtain ⟨api, hapi, hbad⟩ := h
    rcases List.mem_cons.mp hapi with rfl | hmem
    · simp only [serializerSetLoop, updateState_self]
      obtain ⟨e, he⟩ := misLoop_error (introspectorsOf api)
        (match _get_serializer_class api.callback with
         | some c => insertClass acc c
         | Option.none => acc) hbad
      refine ⟨e, ?_⟩
      rw [show api.callback.introspect api.path api.pattern (some Req.mk) =
        introspectorsOf api from rfl, he]
    · simp only [serializerSetLoop, updateState_self]
      cases hm : misLoop (api0.callback.introspect api0.path api0.pattern (some Req.mk))
        (match _get_serializer_class api0.callback with
         | some c => insertClass acc c
         | Option.none => acc) with
      | error e => exact ⟨e, rfl⟩
      | ok acc2 =>
        obtain ⟨e, he⟩ := ih (updateState s api0.callback.id (some Req.mk)) acc2
          ⟨api, hmem, hbad⟩
        exact ⟨e, he⟩

theorem get_models_error (R : List Route) (s : State)
    (hbad : ∃ api ∈ R, ∃ mi ∈ introspectorsOf api, ∃ m,
      (mi.request_class = OverrideVal.byMethod m ∨
       mi.response_class = OverrideVal.byMethod m) ∧
      List.lookup mi.http_method m = Option.none) :
    ∃ e, get_models R s = Except.error e := by
  obtain ⟨e, he⟩ := setLoop_error R s [] hbad
  refine ⟨e, ?_⟩
  unfold get_models _get_serializer_set
  rw [he]

/-- C5 as amended: a per-method response-override mapping lacking the
current HTTP method key aborts `get_operations` and `generate` with an
uncaught lookup error; a request- or response-override mapping lacking the
key aborts `get_models`; in every case nothing partial is returned (the
error constructor carries no output). `generate` and `get_operations`
never consult request overrides, so a lacking request-override key alone
does not make them fail (see the counterexample). -/
theorem malformed_overrides_abort :
    (∀ (api : Route) (s : State),
      (∃ mi ∈ introspectorsOf api, ∃ m,
        mi.response_class = OverrideVal.byMethod m ∧
        List.lookup mi.http_method m = Option.none) →
      ∃ e, get_operations api s = Except.error e) ∧
    (∀ (R : List Route) (s : State),
      (∃ api ∈ R, ∃ mi ∈ introspectorsOf api, ∃ m,
        mi.response_class = OverrideVal.byMethod m ∧
        List.lookup mi.http_method m = Option.none) →
      ∃ e, generate R s = Except.error e) ∧
    (∀ (R : List Route) (s : State),
      (∃ api ∈ R, ∃ mi ∈ introspectorsOf api, ∃ m,
        (mi.request_class = OverrideVal.byMethod m ∨
         mi.response_class = OverrideVal.byMethod m) ∧
        List.lookup mi.http_method m = Option.none) →
      ∃ e, get_models R s = Except.error e) :=
  ⟨get_operations_error,
   fun R s h => generate_error R s h,
   fun R s h => get_models_error R s h⟩

/-- Witness for the amended C5: concrete malformed handlers make
`get_operations` and `generate` fail on a missing response-override key,
and `get_models` fail on a missing request-override key. -/
theorem malformed_overrides_abort_witness :
    (∃ e, get_operations routeBadResponse st0 = Except.error e) ∧
    (∃ e, generate [routeBadResponse] st0 = Except.error e) ∧
    (∃ e, get_models [routeBadRequest] st0 = Except.error e) :=
  ⟨malformed_overrides_abort.1 routeBadResponse st0
    ⟨miBadResponse, List.mem_singleton.mpr rfl, [("POST", serA)], rfl, rfl⟩,
   malformed_overrides_abort.2.1 [routeBadResponse] st0
    ⟨routeBadResponse, List.mem_singleton.mpr rfl,
     miBadResponse, List.mem_singleton.mpr rfl, [("POST", serA)], rfl, rfl⟩,
   malformed_overrides_abort.2.2 [routeBadRequest] st0
    ⟨routeBadRequest, List.mem_singleton.mpr rfl,
     miBadRequest, List.mem_singleton.mpr rfl, [("POST", serA)], Or.inl rfl, rfl⟩⟩

/-- Counterexample to C5 as stated: for a handler whose GET method has a
request-class override mapping {POST: ASerializer} with no GET entry, the
claim asserts that generate, get_operations and get_models all fail; in
fact `generate` succeeds, because the operations path never consults
request overrides, while `get_models` aborts with the lookup error. -/
theorem request_override_missing_key_generate_succeeds :
    (generate [routeBadRequest] st0).map (fun p => p.1.length) = Except.ok 1 ∧
    (get_models [routeBadRequest] st0).map (fun p => p.1.length) =
      Except.error (Err.keyError "GET") :=
  ⟨rfl, rfl⟩

/-! Idempotence of generate (C8): the only state the generator touches is
the transient request slot, which it overwrites before reading, so the
output is independent of the incoming state and a second immediate call
reproduces the first output. -/

theorem generate_cons_eq (api : Route) (rest : List Route) (s : State) :
    generate (api :: rest) s =
      match buildOps (introspectorsOf api) with
      | Except.error e => Except.error e
      | Except.ok ops =>
        match generate rest (updateState s api.callback.id (some Req.mk)) with
        | Except.error e => Except.error e
        | Except.ok (docs, s'') =>
          Except.ok
            ({ description := IntrospectorHelper.get_view_description api.callback,
               path := api.path,
               operations := ops } :: docs, s'') := by
  simp only [generate, get_operations_eq]
  cases buildOps (introspectorsOf api) <;> rfl

theorem map_fst_tail (X : Except Err (List PathDoc × State)) (d : PathDoc) :
    ((match X with
      | Except.error e => Except.error e
      | Except.ok (docs, s'') => Except.ok (d :: docs, s'') :
      Except Err (List PathDoc × State))).map (fun p => p.1) =
    (X.map (fun p => p.1)).map (fun docs => d :: docs) := by
  cases X with
  | error e => rfl
  | ok p => rfl

theorem generate_state_blind (R : List Route) :
    ∀ s t : State,
      (generate R s).map (fun p => p.1) = (generate R t).map (fun p => p.1) := by
  induction R with
  | nil => intro s t; rfl
  | cons api rest ih =>
    intro s t
    rw [generate_cons_eq, generate_cons_eq]
    cases buildOps (introspectorsOf api) with
    | error e => rfl
    | ok ops =>
      dsimp only
      rw [map_fst_tail, map_fst_tail, ih]

/-- C8: calling `generate` twice in immediate sequential succession on the
same route list yields structurally identical documentation both times:
running the second call from the state the first call left behind
reproduces the first output (the transient request-context attribute set
on each handler class does not change the result). -/
theorem generate_idempotent (R : List Route) (s : State) :
    ((generate R s).bind (fun p => generate R p.2)).map (fun p => p.1) =
      (generate R s).map (fun p => p.1) := by
  cases hg : generate R s with
  | error e => rfl
  | ok p =>
    obtain ⟨docs, s'⟩ := p
    have hbind : (Except.ok (docs, s') :
        Except Err (List PathDoc × State)).bind (fun p => generate R p.2) =
        generate R s' := rfl
    rw [hbind, generate_state_blind R s' s, hg]

/-! Independence of get_operations from request-class overrides (C10). -/

theorem build_operation_eraseRequest (mi : MethodIntrospector) :
    build_operation (eraseRequest mi) = build_operation mi := by
  cases mi
  rfl

theorem buildOps_congr (mis1 : List MethodIntrospector) :
    ∀ mis2 : List MethodIntrospector,
      mis1.map eraseRequest = mis2.map eraseRequest →
      buildOps mis1 = buildOps mis2 := by
  induction mis1 with
  | nil =>
    intro mis2 h
    cases mis2 with
    | nil => rfl
    | cons b l => exact absurd h (by simp)
  | cons a l1 ih =>
    intro mis2 h
    cases mis2 with
    | nil => exact absurd h (by simp)
    | cons b l2 =>
      simp only [List.map_cons, List.cons.injEq] at h
      obtain ⟨hab, hl⟩ := h
      have hba : build_operation a = build_operation b := by
        rw [← build_operation_eraseRequest a, ← build_operation_eraseRequest b, hab]
      simp only [buildOps, hba, ih l2 hl]

/-- C10: the output of `get_operations` is independent of the per-method
request-class overrides: two routes whose handlers share class identity
and whose method introspectors agree once the request-class override is
erased produce identical operation lists (request overrides influence only
`get_models`). -/
theorem get_operations_ignores_request_class (api1 api2 : Route) (s : State)
    (hid : api1.callback.id = api2.callback.id)
    (hmis : (introspectorsOf api1).map eraseRequest =
            (introspectorsOf api2).map eraseRequest) :
    get_operations api1 s = get_operations api2 s := by
  rw [get_operations_eq, get_operations_eq, hid, buildOps_congr _ _ hmis]

/-- Witness for C10: `route0` and `route0ReqA` differ only in the GET
request-class override, and their operations are identical. -/
theorem get_operations_ignores_request_class_witness :
    get_operations route0 st0 = get_operations route0ReqA st0 :=
  get_operations_ignores_request_class route0 route0ReqA st0 rfl rfl
